import Mathlib

/-!
Verification of the CAN-bus AVR bootloader host
(src/bootloader-host-python/src/bootloader/bootloader.py).

Shallow embedding of the frame codec (Message.encode / Message.decode),
the request engine (Bootloader._send), the page programmer
(Bootloader.program_page) and the programming driver (Bootloader.program).

Modelling conventions, recorded once here:
* Machine bytes are Nat with explicit masking where the source masks.
* The source runs under Python 3 semantics; `pagesize / 4` and
  `blocksize /= 2` are true division.  Every value these expressions meet
  at run time is an integral power of two (the board page sizes are
  32/64/128/256 and block sizes are reached from 64 by clamping to a
  power-of-two remainder and halving), where true division and integer
  division coincide; the development therefore uses Nat division and
  proves the coincidence on the rationals (lemmas `div_four_cast` and the
  last conjunct of theorem `c5_backoff`).
* The inbox queue of `_send` is modelled by the sequence of values its
  blocking `get` calls observe: `some m` is a delivered message, `none`
  a timeout.  The non-blocking drains discard queued data without
  influencing control flow, so they are absorbed into that sequence.
* Wall-clock sleeps and log prints are dropped; they carry no data.
-/

namespace BootloaderCan

/-- A frame of the external can module: identifier, data bytes, flags. -/
structure CanMessage where
  id : Nat
  data : List Nat
  extended : Bool
  rtr : Bool
  deriving Repr, DecidableEq

-- Message type codes (class MessageType).
namespace MessageType

def REQUEST : Nat := 0

def SUCCESS : Nat := 1

def ERROR : Nat := 2

def WRONG_NUMBER : Nat := 3

end MessageType

-- Message subject codes (class MessageSubject).
namespace MessageSubject

def IDENTIFY : Nat := 1

def SET_ADDRESS : Nat := 2

def DATA : Nat := 3

def START_APPLICATION : Nat := 4

def GET_FUSEBITS : Nat := 5

def CHIP_ERASE : Nat := 6

end MessageSubject

/-- In-memory bootloader protocol message (class Message). -/
structure Message where
  board_id : Nat
  type : Nat
  subject : Nat
  number : Nat
  data_counter : Nat
  data : List Nat
  deriving Repr, DecidableEq

def Message.BOOTLOADER_CAN_IDENTIFIER : Nat := 0x7ff

def Message.START_OF_MESSAGE_MASK : Nat := 0x80

/-- Message.encode: pack the bootloader message into a CAN frame with
identifier 0x7ff, data `[board_id, type << 6 | subject, number,
data_counter] + data`, non-extended, non-RTR. -/
def Message.encode (m : Message) : CanMessage :=
  { id := Message.BOOTLOADER_CAN_IDENTIFIER
    data := [m.board_id, m.type <<< 6 ||| m.subject, m.number, m.data_counter] ++ m.data
    extended := false
    rtr := false }

/-- Message.decode: reject (raise BootloaderException, modelled as none)
when the frame has fewer than 4 data bytes, is extended or is RTR;
otherwise unpack the header bytes.  The `getD` defaults are never used:
the guard guarantees at least four data bytes. -/
def Message.decode (cm : CanMessage) : Option Message :=
  if cm.data.length < 4 ∨ cm.extended ∨ cm.rtr then
    none
  else
    some { board_id := cm.data.getD 0 0
           type := (cm.data.getD 1 0) >>> 6
           subject := (cm.data.getD 1 0) &&& 0x3f
           number := cm.data.getD 2 0
           data_counter := cm.data.getD 3 0
           data := cm.data.drop 4 }

/-- Unpacking the shared header byte recovers both fields for in-range
type and subject values. -/
lemma header_unpack : ∀ t : Nat, t < 4 → ∀ s : Nat, s < 64 →
    (t <<< 6 ||| s) >>> 6 = t ∧ (t <<< 6 ||| s) &&& 0x3f = s := by decide

/-- C7: for every BootloaderMessage with fields in valid ranges, decoding
the CAN frame produced by encode yields the message again, and the header
byte equals `(type <<< 6) ||| subject`. -/
theorem c7_codec_roundtrip (m : Message)
    (hb : m.board_id < 256) (ht : m.type < 4) (hs : m.subject < 64)
    (hn : m.number < 256) (hc : m.data_counter < 256) (hd : m.data.length ≤ 4) :
    Message.decode (Message.encode m) = some m ∧
      (Message.encode m).data.getD 1 0 = m.type <<< 6 ||| m.subject := by
  obtain ⟨h1, h2⟩ := header_unpack m.type ht m.subject hs
  constructor
  · simp [Message.encode, Message.decode, List.getD, h1, h2]
  · simp [Message.encode, List.getD]

/-- C7 witness: a concrete message survives the round trip. -/
theorem c7_codec_roundtrip_witness :
    Message.decode (Message.encode ⟨5, 1, 3, 7, 0x80, [1, 2, 3, 4]⟩) =
        some ⟨5, 1, 3, 7, 0x80, [1, 2, 3, 4]⟩ ∧
      (Message.encode ⟨5, 1, 3, 7, 0x80, [1, 2, 3, 4]⟩).data.getD 1 0 =
        1 <<< 6 ||| 3 :=
  c7_codec_roundtrip ⟨5, 1, 3, 7, 0x80, [1, 2, 3, 4]⟩
    (by decide) (by decide) (by decide) (by decide) (by decide) (by decide)

/-- C8: decode fails exactly when the frame is extended, is RTR, or has
fewer than 4 data bytes; the content of the data bytes (so in particular
the decoded type and subject values) never causes a failure. -/
theorem c8_decode_badformat (cm : CanMessage) :
    Message.decode cm = none ↔
      (cm.extended = true ∨ cm.rtr = true ∨ cm.data.length < 4) := by
  by_cases h : cm.data.length < 4 ∨ cm.extended ∨ cm.rtr
  · simp only [Message.decode, if_pos h]
    tauto
  · simp only [Message.decode, if_neg h]
    push_neg at h
    simp [h.1, h.2.1, h.2.2]

/-! ## Request engine: Bootloader._send

The session state relevant to the claims is `msg_number`.  A call is
modelled against the list of values its blocking queue reads observe
(`some m` = delivered message, `none` = timeout), and `attempts` plays
the role of the retry budget: the source raises once `repeats`, which is
incremented after every wait round, reaches `attempts`.  (For
`attempts = 0` the source retries forever; the model is only used with
the positive attempt counts the callers pass.)  Besides the source
outputs, the model records two ghost observations: the list of
transmitted frames paired with the session `msg_number` at the moment of
transmission, and whether a WRONG_NUMBER resynchronisation happened. -/

/-- Result of a `_send` call. -/
inductive SendResult where
  /-- A matching SUCCESS response was returned. -/
  | success (resp : Message)
  /-- response=False mode: transmitted once, returned None. -/
  | fired
  /-- raise BootloaderException on a matching response that is neither
  SUCCESS nor WRONG_NUMBER. -/
  | protocolError (t : Nat)
  /-- raise BootloaderException after the attempts are exhausted. -/
  | noResponse
  deriving Repr, DecidableEq

/-- Observable outcome of one `_send` call. -/
structure SendOut where
  result : SendResult
  msgNumber : Nat
  /-- transmitted frames, each with the session msg_number at transmit time -/
  sent : List (Message × Nat)
  /-- whether a WRONG_NUMBER resynchronisation updated msg_number -/
  resynced : Bool
  deriving Repr, DecidableEq

def prependSend (req : Message) (n : Nat) (out : SendOut) : SendOut :=
  { out with sent := (req, n) :: out.sent }

def markResync (out : SendOut) : SendOut :=
  { out with resynced := true }

/-- Outcome of one wait round on the inbox. -/
inductive WaitOutcome where
  | timeout
  | matched (m : Message)
  deriving Repr, DecidableEq

/-- The inner wait loop of `_send`: read the queue until a timeout or a
message whose subject matches the request; messages with a different
subject are logged and discarded. -/
def waitResponse (req : Message) : List (Option Message) → WaitOutcome × List (Option Message)
  | [] => (.timeout, [])
  | none :: rest => (.timeout, rest)
  | some m :: rest =>
    if m.subject = req.subject then (.matched m, rest) else waitResponse req rest

/-- The retry loop of `_send` (response=True mode), entered right after
the in-flight message has been built.  Each level transmits the
in-flight frame once and handles one wait round, exactly as the source:
WRONG_NUMBER resynchronises msg_number and the in-flight number if and
only if the outgoing number is 0, then retransmits; any other matching
non-SUCCESS type raises immediately; a timeout retransmits until the
attempts are exhausted.  The `repeats` increment and the
repeats-reaching-attempts raise of the source run after every wait
round, even one that accepted a SUCCESS: a matching SUCCESS therefore
drains the queue, bumps msg_number and returns the response only on a
non-final round (fuel not yet 0 afterwards); on the final round the
no-response exception is raised with msg_number unchanged. -/
def sendCore : Nat → Nat → Message → List (Option Message) → SendOut
  | 0, n, _, _ => ⟨.noResponse, n, [], false⟩
  | fuel + 1, n, req, events =>
    match waitResponse req events with
    | (.timeout, rest) => prependSend req n (sendCore fuel n req rest)
    | (.matched m, rest) =>
      if m.type = MessageType.SUCCESS then
        if fuel = 0 then
          ⟨.noResponse, n, [(req, n)], false⟩
        else
          ⟨.success m, (n + 1) &&& 0xff, [(req, n)], false⟩
      else if m.type = MessageType.WRONG_NUMBER then
        if req.number = 0 then
          markResync (prependSend req n
            (sendCore fuel m.number { req with number := m.number } rest))
        else
          prependSend req n (sendCore fuel n req rest)
      else
        ⟨.protocolError m.type, n, [(req, n)], false⟩

/-- Bootloader._send: build the request with the current msg_number; in
fire-and-forget mode transmit once and advance msg_number; otherwise run
the retry loop. -/
def Bootloader._send (board_id subject : Nat) (data : List Nat) (counter : Nat)
    (response : Bool) (attempts : Nat) (msgNumber : Nat)
    (events : List (Option Message)) : SendOut :=
  let message : Message :=
    { board_id := board_id
      type := MessageType.REQUEST
      subject := subject
      number := msgNumber
      data_counter := counter
      data := data }
  if response = false then
    ⟨.fired, (msgNumber + 1) &&& 0xff, [(message, msgNumber)], false⟩
  else
    sendCore attempts msgNumber message events

/-- One session-level call description for iterating `_send`. -/
structure CallSpec where
  subject : Nat
  data : List Nat
  counter : Nat
  attempts : Nat
  events : List (Option Message)
  deriving Repr

def isSuccess : SendResult → Bool
  | .success _ => true
  | _ => false

def raised : SendResult → Bool
  | .noResponse => true
  | .protocolError _ => true
  | _ => false

/-- Run a list of response=True `_send` calls threading msg_number, and
record whether every call succeeded without resynchronisation. -/
def runSession (board_id : Nat) : Nat → List CallSpec → Nat × Bool
  | n, [] => (n, true)
  | n, c :: cs =>
    let out := Bootloader._send board_id c.subject c.data c.counter true
      c.attempts n c.events
    let rec0 := runSession board_id out.msgNumber cs
    (rec0.1, (isSuccess out.result && !out.resynced) && rec0.2)

lemma land255_eq_mod (n : Nat) : n &&& 0xff = n % 256 := by
  have h := Nat.and_pow_two_sub_one_eq_mod n 8
  norm_num at h
  exact h

/-- A matched wait outcome has the subject of the request. -/
lemma waitResponse_matched_subject (req : Message) :
    ∀ (events rest : List (Option Message)) (m : Message),
      waitResponse req events = (.matched m, rest) → m.subject = req.subject := by
  intro events
  induction events with
  | nil => intro rest m h; simp [waitResponse] at h
  | cons e tl ih =>
    intro rest m h
    match e with
    | none => simp [waitResponse] at h
    | some x =>
      by_cases hx : x.subject = req.subject
      · simp [waitResponse, hx] at h
        rw [← h.1, hx]
      · simp only [waitResponse, if_neg hx] at h
        exact ih rest m h

/-- Every transmitted frame carries the session msg_number current at its
transmission, provided the in-flight message was built that way. -/
lemma sendCore_sent_number :
    ∀ (fuel n : Nat) (req : Message) (events : List (Option Message)),
      req.number = n →
      ∀ p ∈ (sendCore fuel n req events).sent, p.1.number = p.2 := by
  intro fuel
  induction fuel with
  | zero => intro n req events _ p hp; simp [sendCore] at hp
  | succ fuel ih =>
    intro n req events hreq p hp
    rw [sendCore] at hp
    match hw : waitResponse req events with
    | (.timeout, rest) =>
      rw [hw] at hp
      simp only [prependSend, List.mem_cons] at hp
      rcases hp with h | h
      · rw [h]; exact hreq
      · exact ih n req rest hreq p h
    | (.matched m, rest) =>
      rw [hw] at hp
      by_cases hsucc : m.type = MessageType.SUCCESS
      · by_cases hf : fuel = 0
        · simp only [if_pos hsucc, if_pos hf, List.mem_singleton] at hp
          rw [hp]; exact hreq
        · simp only [if_pos hsucc, if_neg hf, List.mem_singleton] at hp
          rw [hp]; exact hreq
      · by_cases hwn : m.type = MessageType.WRONG_NUMBER
        · simp only [if_neg hsucc, if_pos hwn] at hp
          by_cases hz : req.number = 0
          · simp only [if_pos hz, markResync, prependSend, List.mem_cons] at hp
            rcases hp with h | h
            · rw [h]; exact hreq
            · exact ih m.number { req with number := m.number } rest rfl p h
          · simp only [if_neg hz, prependSend, List.mem_cons] at hp
            rcases hp with h | h
            · rw [h]; exact hreq
            · exact ih n req rest hreq p h
        · simp only [if_neg hsucc, if_neg hwn, List.mem_singleton] at hp
          rw [hp]; exact hreq

/-- A successful run without resynchronisation advances msg_number by one
modulo 256. -/
lemma sendCore_success_advance :
    ∀ (fuel n : Nat) (req : Message) (events : List (Option Message)),
      isSuccess (sendCore fuel n req events).result = true →
      (sendCore fuel n req events).resynced = false →
      (sendCore fuel n req events).msgNumber = (n + 1) % 256 := by
  intro fuel
  induction fuel with
  | zero => intro n req events h _; simp [sendCore, isSuccess] at h
  | succ fuel ih =>
    intro n req events hs hr
    rw [sendCore] at hs hr ⊢
    rcases hww : waitResponse req events with ⟨o, rest⟩
    rw [hww] at hs hr
    cases o with
    | timeout =>
      simp only [prependSend] at hs hr ⊢
      exact ih n req rest hs hr
    | matched m =>
      by_cases hsucc : m.type = MessageType.SUCCESS
      · by_cases hf : fuel = 0
        · simp [if_pos hsucc, if_pos hf, isSuccess] at hs
        · simp only [if_pos hsucc, if_neg hf]
          exact land255_eq_mod (n + 1)
      · by_cases hwn : m.type = MessageType.WRONG_NUMBER
        · simp only [if_neg hsucc, if_pos hwn] at hs hr ⊢
          by_cases hz : req.number = 0
          · simp [if_pos hz, markResync, prependSend] at hr
          · simp only [if_neg hz, prependSend] at hs hr ⊢
            exact ih n req rest hs hr
        · simp only [if_neg hsucc, if_neg hwn] at hs
          simp [isSuccess] at hs

/-- A raising run without resynchronisation leaves msg_number unchanged. -/
lemma sendCore_raised_msgNumber :
    ∀ (fuel n : Nat) (req : Message) (events : List (Option Message)),
      raised (sendCore fuel n req events).result = true →
      (sendCore fuel n req events).resynced = false →
      (sendCore fuel n req events).msgNumber = n := by
  intro fuel
  induction fuel with
  | zero => intro n req events _ _; simp [sendCore]
  | succ fuel ih =>
    intro n req events hs hr
    rw [sendCore] at hs hr ⊢
    rcases hww : waitResponse req events with ⟨o, rest⟩
    rw [hww] at hs hr
    cases o with
    | timeout =>
      simp only [prependSend] at hs hr ⊢
      exact ih n req rest hs hr
    | matched m =>
      by_cases hsucc : m.type = MessageType.SUCCESS
      · by_cases hf : fuel = 0
        · simp [if_pos hsucc, if_pos hf]
        · simp [if_pos hsucc, if_neg hf, raised] at hs
      · by_cases hwn : m.type = MessageType.WRONG_NUMBER
        · simp only [if_neg hsucc, if_pos hwn] at hs hr ⊢
          by_cases hz : req.number = 0
          · simp [if_pos hz, markResync, prependSend] at hr
          · simp only [if_neg hz, prependSend] at hs hr ⊢
            exact ih n req rest hs hr
        · simp only [if_neg hsucc, if_neg hwn]

/-- Any run with positive retry budget transmits the in-flight frame
first, at the current msg_number. -/
lemma sendCore_sent_head (fuel n : Nat) (req : Message)
    (events : List (Option Message)) :
    (sendCore (fuel + 1) n req events).sent.head? = some (req, n) := by
  rw [sendCore]
  rcases hww : waitResponse req events with ⟨o, rest⟩
  cases o with
  | timeout => simp [prependSend]
  | matched m =>
    by_cases hsucc : m.type = MessageType.SUCCESS
    · by_cases hf : fuel = 0
      · simp [if_pos hsucc, if_pos hf]
      · simp [if_pos hsucc, if_neg hf]
    · by_cases hwn : m.type = MessageType.WRONG_NUMBER
      · by_cases hz : req.number = 0
        · simp [if_neg hsucc, if_pos hwn, if_pos hz, markResync, prependSend]
        · simp [if_neg hsucc, if_pos hwn, if_neg hz, prependSend]
      · simp [if_neg hsucc, if_neg hwn]

/-- C2: on a matching WRONG_NUMBER response the loop retransmits; it sets
msg_number to the number reported by the response and updates the
in-flight message accordingly exactly when the outgoing number is 0, and
leaves msg_number untouched otherwise.  The second conjunct reads the
update off the next transmitted frame. -/
theorem c2_wrong_number_resync (fuel n : Nat) (req w : Message)
    (rest : List (Option Message))
    (hs : w.subject = req.subject) (ht : w.type = MessageType.WRONG_NUMBER) :
    (sendCore (fuel + 1) n req (some w :: rest) =
      if req.number = 0 then
        markResync (prependSend req n
          (sendCore fuel w.number { req with number := w.number } rest))
      else
        prependSend req n (sendCore fuel n req rest)) ∧
    (0 < fuel →
      (sendCore (fuel + 1) n req (some w :: rest)).sent.get? 1 =
        some (if req.number = 0 then ({ req with number := w.number }, w.number)
              else (req, n))) := by
  have hne : ¬ w.type = MessageType.SUCCESS := by
    rw [ht]; decide
  have hwait : waitResponse req (some w :: rest) = (.matched w, rest) := by
    simp [waitResponse, hs]
  have hmain : sendCore (fuel + 1) n req (some w :: rest) =
      if req.number = 0 then
        markResync (prependSend req n
          (sendCore fuel w.number { req with number := w.number } rest))
      else
        prependSend req n (sendCore fuel n req rest) := by
    rw [sendCore, hwait]
    simp only [if_neg hne, if_pos ht]
  refine ⟨hmain, ?_⟩
  intro hf
  obtain ⟨f, rfl⟩ : ∃ f, fuel = f + 1 :=
    ⟨fuel - 1, (Nat.succ_pred_eq_of_pos hf).symm⟩
  rw [hmain]
  by_cases hz : req.number = 0
  · simp only [if_pos hz, markResync, prependSend, List.get?]
    have := sendCore_sent_head f w.number { req with number := w.number } rest
    rw [← List.get?_zero] at this
    exact this
  · simp only [if_neg hz, prependSend, List.get?]
    have := sendCore_sent_head f n req rest
    rw [← List.get?_zero] at this
    exact this

def c2req : Message := ⟨5, 0, 1, 0, 0x80, []⟩

def c2w : Message := ⟨5, 3, 1, 0x42, 0x80, []⟩

/-- C2 witness: a concrete WRONG_NUMBER exchange at number 0. -/
theorem c2_wrong_number_resync_witness :
    (sendCore 2 0 c2req (some c2w :: []) =
      if c2req.number = 0 then
        markResync (prependSend c2req 0
          (sendCore 1 c2w.number { c2req with number := c2w.number } []))
      else
        prependSend c2req 0 (sendCore 1 0 c2req [])) ∧
    (0 < 1 →
      (sendCore 2 0 c2req (some c2w :: [])).sent.get? 1 =
        some (if c2req.number = 0 then ({ c2req with number := c2w.number }, c2w.number)
              else (c2req, 0))) :=
  c2_wrong_number_resync 1 0 c2req c2w [] (by decide) (by decide)

/-- Unfolding `_send` in request/response mode. -/
lemma send_true (bid subj : Nat) (d : List Nat) (ctr att n : Nat)
    (evs : List (Option Message)) :
    Bootloader._send bid subj d ctr true att n evs =
      sendCore att n
        { board_id := bid, type := MessageType.REQUEST, subject := subj,
          number := n, data_counter := ctr, data := d } evs := by
  simp [Bootloader._send]

/-- Unfolding `_send` in fire-and-forget mode. -/
lemma send_false (bid subj : Nat) (d : List Nat) (ctr att n : Nat)
    (evs : List (Option Message)) :
    Bootloader._send bid subj d ctr false att n evs =
      ⟨.fired, (n + 1) &&& 0xff,
        [({ board_id := bid, type := MessageType.REQUEST, subject := subj,
            number := n, data_counter := ctr, data := d }, n)], false⟩ := by
  simp [Bootloader._send]

/-- Advance of msg_number across a list of calls that all succeeded
without resynchronisation. -/
lemma runSession_mod (bid : Nat) :
    ∀ (cs : List CallSpec) (n : Nat), n < 256 →
      (runSession bid n cs).2 = true →
      (runSession bid n cs).1 = (n + cs.length) % 256 := by
  intro cs
  induction cs with
  | nil =>
    intro n hn _
    simp [runSession, Nat.mod_eq_of_lt hn]
  | cons c cs ih =>
    intro n hn hok
    rw [runSession] at hok ⊢
    simp only [Bool.and_eq_true, Bool.not_eq_true'] at hok
    obtain ⟨⟨hsucc, hres⟩, hrest⟩ := hok
    have hadv : (Bootloader._send bid c.subject c.data c.counter true
        c.attempts n c.events).msgNumber = (n + 1) % 256 := by
      rw [send_true] at hsucc hres ⊢
      exact sendCore_success_advance c.attempts n _ c.events hsucc hres
    rw [hadv] at hrest ⊢
    have := ih ((n + 1) % 256) (Nat.mod_lt _ (by norm_num)) hrest
    rw [this, Nat.mod_add_mod, List.length_cons]
    omega

/-- C3: every transmitted request carries the msg_number current at its
transmission; a successful response=true call without resynchronisation
and a response=false call both advance msg_number by one modulo 256; and
N successful resync-free calls from a fresh session leave
msg_number = N mod 256. -/
theorem c3_sequence_numbering :
    (∀ (bid subj : Nat) (d : List Nat) (ctr : Nat) (resp : Bool) (att n : Nat)
        (evs : List (Option Message)) (p : Message × Nat),
        p ∈ (Bootloader._send bid subj d ctr resp att n evs).sent →
        p.1.number = p.2) ∧
    (∀ (bid subj : Nat) (d : List Nat) (ctr att n : Nat)
        (evs : List (Option Message)),
        isSuccess (Bootloader._send bid subj d ctr true att n evs).result = true →
        (Bootloader._send bid subj d ctr true att n evs).resynced = false →
        (Bootloader._send bid subj d ctr true att n evs).msgNumber = (n + 1) % 256) ∧
    (∀ (bid subj : Nat) (d : List Nat) (ctr att n : Nat)
        (evs : List (Option Message)),
        (Bootloader._send bid subj d ctr false att n evs).msgNumber = (n + 1) % 256 ∧
        (Bootloader._send bid subj d ctr false att n evs).sent =
          [({ board_id := bid, type := MessageType.REQUEST, subject := subj,
              number := n, data_counter := ctr, data := d }, n)]) ∧
    (∀ (bid : Nat) (cs : List CallSpec),
        (runSession bid 0 cs).2 = true →
        (runSession bid 0 cs).1 = cs.length % 256) := by
  refine ⟨?_, ?_, ?_, ?_⟩
  · intro bid subj d ctr resp att n evs p hp
    cases resp with
    | false =>
      rw [send_false] at hp
      simp only [List.mem_singleton] at hp
      rw [hp]
    | true =>
      rw [send_true] at hp
      exact sendCore_sent_number att n _ evs rfl p hp
  · intro bid subj d ctr att n evs hsucc hres
    rw [send_true] at hsucc hres ⊢
    exact sendCore_success_advance att n _ evs hsucc hres
  · intro bid subj d ctr att n evs
    rw [send_false]
    exact ⟨land255_eq_mod (n + 1), rfl⟩
  · intro bid cs hok
    have := runSession_mod bid cs 0 (by norm_num) hok
    simpa using this

def c3call : CallSpec := ⟨1, [], 0x80, 2, [some ⟨5, 1, 1, 0x11, 0x80, []⟩]⟩

/-- C3 witness: one successful IDENTIFY-style call from a fresh session
leaves msg_number = 1 = 1 mod 256. -/
theorem c3_sequence_numbering_witness :
    (runSession 5 0 [c3call]).2 = true ∧
    (runSession 5 0 [c3call]).1 = [c3call].length % 256 :=
  ⟨by decide, c3_sequence_numbering.2.2.2 5 [c3call] (by decide)⟩

/-- C4 (amended): a call of send that terminates by raising
BootloaderError leaves msg_number unchanged, provided no WRONG_NUMBER
resynchronisation (possible only for a request sent with number 0)
happened during the call. -/
theorem c4_raise_preserves_msg_number (bid subj : Nat) (d : List Nat)
    (ctr : Nat) (resp : Bool) (att n : Nat) (evs : List (Option Message))
    (hr : raised (Bootloader._send bid subj d ctr resp att n evs).result = true)
    (hnr : (Bootloader._send bid subj d ctr resp att n evs).resynced = false) :
    (Bootloader._send bid subj d ctr resp att n evs).msgNumber = n := by
  cases resp with
  | false =>
    rw [send_false] at hr
    simp [raised] at hr
  | true =>
    rw [send_true] at hr hnr ⊢
    exact sendCore_raised_msgNumber att n _ evs hr hnr

/-- C4 counterexample: msg_number 0, matching WRONG_NUMBER with number
0x42 arrives, then the attempts run out: the call raises (NoResponse)
yet msg_number ends at 0x42, not at its initial value 0.  This refutes
the claim that every raising send call preserves msg_number. -/
theorem c4_counterexample :
    raised (Bootloader._send 5 1 [] 0x80 true 2 0
        [some ⟨5, 3, 1, 0x42, 0x80, []⟩, none]).result = true ∧
    (Bootloader._send 5 1 [] 0x80 true 2 0
        [some ⟨5, 3, 1, 0x42, 0x80, []⟩, none]).msgNumber = 0x42 ∧
    (0x42 : Nat) ≠ 0 := by
  refine ⟨?_, ?_, by decide⟩ <;> decide

/-- C4 witness: a timeout-only raising call keeps msg_number = 7. -/
theorem c4_raise_preserves_msg_number_witness :
    raised (Bootloader._send 5 1 [] 0x80 true 2 7 [none, none]).result = true ∧
    (Bootloader._send 5 1 [] 0x80 true 2 7 [none, none]).resynced = false ∧
    (Bootloader._send 5 1 [] 0x80 true 2 7 [none, none]).msgNumber = 7 :=
  ⟨by decide, by decide,
    c4_raise_preserves_msg_number 5 1 [] 0x80 true 2 7 [none, none]
      (by decide) (by decide)⟩

/-- A returned response always has the subject of the request and type
SUCCESS. -/
lemma sendCore_success_subject :
    ∀ (fuel n : Nat) (req : Message) (events : List (Option Message)) (m : Message),
      (sendCore fuel n req events).result = .success m →
      m.subject = req.subject ∧ m.type = MessageType.SUCCESS := by
  intro fuel
  induction fuel with
  | zero => intro n req events m h; simp [sendCore] at h
  | succ fuel ih =>
    intro n req events m h
    rw [sendCore] at h
    rcases hww : waitResponse req events with ⟨o, rest⟩
    rw [hww] at h
    cases o with
    | timeout =>
      simp only [prependSend] at h
      exact ih n req rest m h
    | matched x =>
      by_cases hsucc : x.type = MessageType.SUCCESS
      · by_cases hf : fuel = 0
        · simp only [if_pos hsucc, if_pos hf] at h
          exact SendResult.noConfusion h
        · simp only [if_pos hsucc, if_neg hf, SendResult.success.injEq] at h
          rw [← h]
          exact ⟨waitResponse_matched_subject req events rest x hww, hsucc⟩
      · by_cases hwn : x.type = MessageType.WRONG_NUMBER
        · simp only [if_neg hsucc, if_pos hwn] at h
          by_cases hz : req.number = 0
          · simp only [if_pos hz, markResync, prependSend] at h
            exact ih x.number { req with number := x.number } rest m h
          · simp only [if_neg hz, prependSend] at h
            exact ih n req rest m h
        · simp only [if_neg hsucc, if_neg hwn] at h
          exact SendResult.noConfusion h

/-- C10 counterexample: with the default two attempts, a timeout
followed by a matching SUCCESS (number 0x99, never compared) arriving
in the second and final wait round does NOT complete the request: the
unconditional repeats check raises the no-response error with
msg_number unchanged, refuting that a matching SUCCESS always
completes the call. -/
theorem c10_counterexample :
    (⟨5, 1, 2, 0x99, 0x80, []⟩ : Message).subject = 2 ∧
    (⟨5, 1, 2, 0x99, 0x80, []⟩ : Message).type = MessageType.SUCCESS ∧
    (Bootloader._send 5 2 [1] 0x80 true 2 0
        [none, some ⟨5, 1, 2, 0x99, 0x80, []⟩]).result = .noResponse ∧
    (Bootloader._send 5 2 [1] 0x80 true 2 0
        [none, some ⟨5, 1, 2, 0x99, 0x80, []⟩]).msgNumber = 0 := by
  refine ⟨by decide, by decide, by decide, by decide⟩

/-- C10 (amended): a returned response always has the subject of the
request and type SUCCESS; an inbound message is never compared against
the request number, so a matching SUCCESS with any number completes the
call whenever it arrives before the final wait round; a matching
SUCCESS accepted on the final wait round (repeats reaching attempts) is
followed by the no-response raise with msg_number unchanged. -/
theorem c10_success_acceptance :
    (∀ (bid subj : Nat) (d : List Nat) (ctr att n : Nat)
        (evs : List (Option Message)) (m : Message),
        (Bootloader._send bid subj d ctr true att n evs).result = .success m →
        m.subject = subj ∧ m.type = MessageType.SUCCESS) ∧
    (∀ (bid subj : Nat) (d : List Nat) (ctr fuel n : Nat)
        (rest : List (Option Message)) (m : Message),
        m.subject = subj → m.type = MessageType.SUCCESS →
        Bootloader._send bid subj d ctr true (fuel + 2) n (some m :: rest) =
          ⟨.success m, (n + 1) &&& 0xff,
            [({ board_id := bid, type := MessageType.REQUEST, subject := subj,
                number := n, data_counter := ctr, data := d }, n)], false⟩) ∧
    (∀ (bid subj : Nat) (d : List Nat) (ctr n : Nat)
        (rest : List (Option Message)) (m : Message),
        m.subject = subj → m.type = MessageType.SUCCESS →
        Bootloader._send bid subj d ctr true 1 n (some m :: rest) =
          ⟨.noResponse, n,
            [({ board_id := bid, type := MessageType.REQUEST, subject := subj,
                number := n, data_counter := ctr, data := d }, n)], false⟩) := by
  refine ⟨?_, ?_, ?_⟩
  · intro bid subj d ctr att n evs m h
    rw [send_true] at h
    exact sendCore_success_subject att n _ evs m h
  · intro bid subj d ctr fuel n rest m hsub htyp
    rw [send_true]
    rw [sendCore]
    have hwait : waitResponse
        { board_id := bid, type := MessageType.REQUEST, subject := subj,
          number := n, data_counter := ctr, data := d }
        (some m :: rest) = (.matched m, rest) := by
      simp [waitResponse, hsub]
    rw [hwait]
    simp only [if_pos htyp, if_neg (by omega : ¬ fuel + 1 = 0)]
  · intro bid subj d ctr n rest m hsub htyp
    rw [send_true]
    rw [sendCore]
    have hwait : waitResponse
        { board_id := bid, type := MessageType.REQUEST, subject := subj,
          number := n, data_counter := ctr, data := d }
        (some m :: rest) = (.matched m, rest) := by
      simp [waitResponse, hsub]
    rw [hwait]
    simp [if_pos htyp]

/-- C10 witness: a matching SUCCESS whose number (0x99) differs from the
request number (0), arriving in the first of two wait rounds, completes
the call. -/
theorem c10_success_acceptance_witness :
    Bootloader._send 5 2 [1] 0x80 true 2 0 [some ⟨5, 1, 2, 0x99, 0, []⟩] =
      ⟨.success ⟨5, 1, 2, 0x99, 0, []⟩, (0 + 1) &&& 0xff,
        [({ board_id := 5, type := MessageType.REQUEST, subject := 2,
            number := 0, data_counter := 0x80, data := [1] }, 0)], false⟩ :=
  c10_success_acceptance.2.1 5 2 [1] 0x80 0 0 [] ⟨5, 1, 2, 0x99, 0, []⟩
    (by decide) (by decide)

/-! ## Page programmer: Bootloader.program_page

The wire trace is the list of SET_ADDRESS and DATA frames produced by
the completed awaited operations of a run; partial frames of a failed
block (which the target discards) are not recorded.  Failures of the
two awaited sends (`SET_ADDRESS` and the last frame of a block) are
driven by an oracle list of booleans, one entry per awaited send, in
order.  The final page-echo comparison after the loop is not part of
any claim and is not modelled. -/

/-- One wire action of the page programmer. -/
inductive PageFrame where
  | setAddress (payload : List Nat)
  | dataFrame (counter : Nat) (payload : List Nat) (awaitResponse : Bool)
  deriving Repr, DecidableEq

/-- Python range(n, 0, -1) = [n, n-1, ..., 1]. -/
def rangeDown : Nat → List Nat
  | 0 => []
  | n + 1 => (n + 1) :: rangeDown n

/-- The slice data[i*4 : i*4 + 4]. -/
def sliceUnit (data : List Nat) (i : Nat) : List Nat :=
  (data.drop (i * 4)).take 4

/-- The middle-frame loop of a block: for k in range(blocksize-2, 0, -1)
the running unit index i is incremented and counter k is sent with the
next 4-byte slice, without awaiting a response; returns the frames and
the final value of i. -/
def middleFrames : List Nat → Nat → List Nat → List PageFrame × Nat
  | [], i, _ => ([], i)
  | k :: ks, i, data =>
    let i1 := i + 1
    let rec0 := middleFrames ks i1 data
    (.dataFrame k (sliceUnit data i1) false :: rec0.1, rec0.2)

/-- Streaming one block of `blocksize` units starting at unit offset
`offset`: blocksize 1 sends a single awaited DATA request with the
default counter 0x80 | 0; otherwise the start-of-block frame with
counter 0x80 | (blocksize - 1), the middle frames, then the final
awaited frame with counter 0. -/
def streamBlock (blocksize offset : Nat) (data : List Nat) : List PageFrame :=
  if blocksize = 1 then
    [.dataFrame (Message.START_OF_MESSAGE_MASK ||| 0) (sliceUnit data offset) true]
  else
    let mids := middleFrames (rangeDown (blocksize - 2)) offset data
    .dataFrame (Message.START_OF_MESSAGE_MASK ||| (blocksize - 1))
        (sliceUnit data offset) false ::
      (mids.1 ++ [.dataFrame 0 (sliceUnit data (mids.2 + 1)) true])

/-- Result of a program_page run. -/
inductive PageOutcome where
  /-- the loop completed; the recorded wire trace -/
  | ok (frames : List PageFrame)
  /-- a BootloaderException was propagated (failure at blocksize 1) -/
  | raised
  /-- the oracle was exhausted before the loop finished (model artefact) -/
  | stuck
  deriving Repr, DecidableEq

def PageOutcome.prepend (fs : List PageFrame) : PageOutcome → PageOutcome
  | .ok gs => .ok (fs ++ gs)
  | o => o

/-- The block loop of program_page.  Each iteration: issue SET_ADDRESS
with payload [page >> 8, page & 0xff, 0, offset] when the address is not
set; clamp blocksize to the remaining units; stream one block whose last
frame awaits the response.  On success subtract the block from
remaining, advance offset and keep the clamped blocksize; on a failure
of either awaited send halve the current blocksize (the clamp has not
yet happened when SET_ADDRESS fails) and clear the address flag while
blocksize exceeds 1, else propagate. -/
def pageLoop (page : Nat) (data : List Nat) (remaining blocksize offset : Nat)
    (addressSet : Bool) (oracle : List Bool) : PageOutcome :=
  if remaining = 0 then .ok []
  else
    match oracle, addressSet with
    | [], _ => .stuck
    | ob :: rest, true =>
      let b := min blocksize remaining
      if ob then
        (pageLoop page data (remaining - b) b (offset + b) true rest).prepend
          (streamBlock b offset data)
      else if 1 < b then
        pageLoop page data remaining (b / 2) offset false rest
      else .raised
    | oa :: rest, false =>
      if oa then
        match rest with
        | [] => .stuck
        | ob :: rest2 =>
          let b := min blocksize remaining
          if ob then
            (pageLoop page data (remaining - b) b (offset + b) true rest2).prepend
              (.setAddress [page >>> 8, page &&& 0xff, 0, offset] ::
                streamBlock b offset data)
          else if 1 < b then
            pageLoop page data remaining (b / 2) offset false rest2
          else .raised
      else if 1 < blocksize then
        pageLoop page data remaining (blocksize / 2) offset false rest
      else .raised
termination_by oracle.length
decreasing_by all_goals (simp only [List.length_cons]; omega)

/-- Bootloader.program_page, on data already converted to bytes: pad
short data with 0xff to the page size, then run the block loop with
remaining = pagesize / 4 units, initial blocksize 64, offset 0.  The
source divides by 4 with Python true division; board page sizes are
multiples of 4, where this agrees with Nat division (lemma
`div_four_cast`). -/
def program_page (pagesize page : Nat) (data : List Nat)
    (addressAlreadySet : Bool) (oracle : List Bool) : PageOutcome :=
  let data2 := if data.length < pagesize then
      data ++ List.replicate (pagesize - data.length) 0xff
    else data
  pageLoop page data2 (pagesize / 4) 64 0 addressAlreadySet oracle

def isDataFrame : PageFrame → Bool
  | .dataFrame _ _ _ => true
  | .setAddress _ => false

def dataPayload : PageFrame → List Nat
  | .dataFrame _ p _ => p
  | .setAddress _ => []

/-- Concatenated payload bytes of the DATA frames of a trace. -/
def dataBytes (fs : List PageFrame) : List Nat :=
  ((fs.filter isDataFrame).map dataPayload).flatten

/-- On the rationals (exactly representing the small dyadic values the
Python floats take here), pagesize / 4 equals Nat division for page
sizes that are multiples of 4. -/
lemma div_four_cast (p : Nat) (h : p % 4 = 0) :
    ((p : ℚ)) / 4 = ((p / 4 : ℕ) : ℚ) := by
  obtain ⟨q, rfl⟩ := Nat.dvd_of_mod_eq_zero h
  rw [Nat.mul_div_cancel_left q (by norm_num)]
  push_cast
  ring

/-- The halving chain blocksize /= 2 of the source, on the rationals. -/
def halveIterQ : Nat → ℚ → ℚ
  | 0, b => b
  | k + 1, b => halveIterQ k (b / 2)

lemma halveIterQ_eq_div : ∀ (k : Nat) (b : ℚ), halveIterQ k b = b / 2 ^ k := by
  intro k
  induction k with
  | zero => intro b; simp [halveIterQ]
  | succ k ih =>
    intro b
    rw [halveIterQ, ih, div_div]
    congr 1
    ring

/-- Oracle pattern for k further block failures after a first one: the
SET_ADDRESS reissue succeeds, then the block fails again. -/
def consecFail : Nat → List Bool → List Bool
  | 0, rest => rest
  | k + 1, rest => true :: false :: consecFail k rest

/-- Closed form of the middle-frame loop: frame j (0-based) carries
counter m - j and the slice at unit i + 1 + j, and the running index
ends at i + m. -/
lemma middleFrames_rangeDown (d : List Nat) :
    ∀ (m i : Nat),
      middleFrames (rangeDown m) i d =
        ((List.range m).map
          (fun j => .dataFrame (m - j) (sliceUnit d (i + 1 + j)) false), i + m) := by
  intro m
  induction m with
  | zero => intro i; simp [rangeDown, middleFrames]
  | succ m ih =>
    intro i
    show middleFrames ((m + 1) :: rangeDown m) i d = _
    simp only [middleFrames, ih (i + 1)]
    rw [List.range_succ_eq_map, List.map_cons, List.map_map, Prod.mk.injEq]
    refine ⟨?_, by omega⟩
    simp only [List.cons.injEq]
    refine ⟨by simp, ?_⟩
    apply List.map_congr_left
    intro j _
    have e1 : m + 1 - (j + 1) = m - j := by omega
    have e2 : i + 1 + 1 + j = i + 1 + (j + 1) := by omega
    simp [Function.comp, e1, e2]

/-- Closed form of a streamed block of size at least 2: frame i of the
B frames carries counter 0x80 | (B-1) for i = 0, B-1-i otherwise, the
4-byte slice at unit offset O + i, and awaits a response exactly for
i = B - 1. -/
lemma streamBlock_closed (B O : Nat) (d : List Nat) (hB : 1 < B) :
    streamBlock B O d =
      (List.range B).map (fun i =>
        PageFrame.dataFrame
          (if i = 0 then Message.START_OF_MESSAGE_MASK ||| (B - 1) else B - 1 - i)
          (sliceUnit d (O + i))
          (decide (i = B - 1))) := by
  obtain ⟨b, rfl⟩ : ∃ b, B = b + 2 := ⟨B - 2, by omega⟩
  rw [streamBlock, if_neg (by omega : ¬ b + 2 = 1)]
  simp only [middleFrames_rangeDown, Nat.add_sub_cancel]
  rw [show b + 2 = (b + 1) + 1 from rfl, List.range_succ, List.map_append,
    List.range_succ_eq_map, List.map_cons, List.map_map, List.cons_append]
  simp only [List.cons.injEq]
  refine ⟨?_, ?_⟩
  · have h1 : ¬ ((0 : Nat) = b + 1 + 1 - 1) := by omega
    rw [decide_eq_false h1]
    simp
  · congr 1
    · apply List.map_congr_left
      intro j hj
      rw [List.mem_range] at hj
      have h0 : ¬ (j + 1 = 0) := by omega
      have h1 : ¬ (j + 1 = b + 1 + 1 - 1) := by omega
      have e1 : b + 1 + 1 - 1 - (j + 1) = b - j := by omega
      have e2 : O + 1 + j = O + (j + 1) := by omega
      simp [Function.comp, h0, decide_eq_false h1, e1, e2]
      omega
    · have h0 : ¬ (b + 1 = 0) := by omega
      have e1 : b + 1 + 1 - 1 - (b + 1) = 0 := by omega
      have e2 : O + b + 1 = O + (b + 1) := by omega
      have h2 : b + 1 = b + 1 + 1 - 1 := by omega
      simp [h0, e1, e2, decide_eq_true h2]


/-- C1: a block of size B > 1 at unit offset O is emitted as exactly B
DATA frames in order; frame i carries counter 0x80 | (B-1) for i = 0 and
B-1-i afterwards (so B-2, ..., 1, 0), the payload slice
data[(O+i)*4 .. (O+i)*4+4], and only the last frame (i = B-1) awaits a
response; the payloads therefore cover bytes O*4 .. (O+B)*4. -/
theorem c1_block_framing (B O : Nat) (d : List Nat) (hB : 1 < B) :
    streamBlock B O d =
      (List.range B).map (fun i =>
        PageFrame.dataFrame
          (if i = 0 then Message.START_OF_MESSAGE_MASK ||| (B - 1) else B - 1 - i)
          (sliceUnit d (O + i))
          (decide (i = B - 1))) :=
  streamBlock_closed B O d hB

/-- C1 witness: the closed form at B = 4, O = 2 on concrete data. -/
theorem c1_block_framing_witness :
    (1 < 4 ∧
      streamBlock 4 2 (List.range 32) =
        (List.range 4).map (fun i =>
          PageFrame.dataFrame
            (if i = 0 then Message.START_OF_MESSAGE_MASK ||| (4 - 1) else 4 - 1 - i)
            (sliceUnit (List.range 32) (2 + i))
            (decide (i = 4 - 1)))) :=
  ⟨by decide, c1_block_framing 4 2 (List.range 32) (by decide)⟩

/-! Step equations of the block loop. -/

lemma pageLoop_zero (page : Nat) (d : List Nat) (bs off : Nat) (s : Bool)
    (oracle : List Bool) : pageLoop page d 0 bs off s oracle = .ok [] := by
  rw [pageLoop.eq_def]
  rfl

/-- One iteration with the address already set: clamp, stream, then
either advance or back off. -/
lemma pageLoop_step_true (page : Nat) (d : List Nat) (r bs off : Nat) (ob : Bool)
    (rest : List Bool) (hr : r ≠ 0) :
    pageLoop page d r bs off true (ob :: rest) =
      if ob then
        (pageLoop page d (r - min bs r) (min bs r) (off + min bs r) true rest).prepend
          (streamBlock (min bs r) off d)
      else if 1 < min bs r then
        pageLoop page d r (min bs r / 2) off false rest
      else .raised := by
  rw [pageLoop.eq_def, if_neg hr]

/-- One iteration that fails already at SET_ADDRESS: the still unclamped
blocksize is halved. -/
lemma pageLoop_addr_fail (page : Nat) (d : List Nat) (r bs off : Nat)
    (rest : List Bool) (hr : r ≠ 0) :
    pageLoop page d r bs off false (false :: rest) =
      if 1 < bs then pageLoop page d r (bs / 2) off false rest
      else .raised := by
  rw [pageLoop.eq_def, if_neg hr]
  rfl

/-- One iteration whose SET_ADDRESS succeeds, followed by the block. -/
lemma pageLoop_addr_ok (page : Nat) (d : List Nat) (r bs off : Nat) (ob : Bool)
    (rest : List Bool) (hr : r ≠ 0) :
    pageLoop page d r bs off false (true :: ob :: rest) =
      if ob then
        (pageLoop page d (r - min bs r) (min bs r) (off + min bs r) true rest).prepend
          (.setAddress [page >>> 8, page &&& 0xff, 0, off] ::
            streamBlock (min bs r) off d)
      else if 1 < min bs r then
        pageLoop page d r (min bs r / 2) off false rest
      else .raised := by
  rw [pageLoop.eq_def, if_neg hr]
  cases ob <;> rfl

/-- k further block failures, each preceded by a successful SET_ADDRESS
reissue, divide the blocksize by 2^k. -/
lemma pageLoop_failF (page : Nat) (d : List Nat) :
    ∀ (k r B off : Nat) (rest : List Bool), 2 ^ k ≤ B → B ≤ r →
      pageLoop page d r B off false (consecFail k rest) =
        pageLoop page d r (B / 2 ^ k) off false rest := by
  intro k
  induction k with
  | zero =>
    intro r B off rest h1 h2
    simp [consecFail]
  | succ k ih =>
    intro r B off rest h1 h2
    have h2pow : 2 ≤ 2 ^ (k + 1) := by
      calc 2 = 2 ^ 1 := by norm_num
      _ ≤ 2 ^ (k + 1) := Nat.pow_le_pow_right (by norm_num) (by omega)
    have hr : r ≠ 0 := by omega
    have hbmin : min B r = B := Nat.min_eq_left h2
    rw [consecFail, pageLoop_addr_ok page d r B off false (consecFail k rest) hr]
    rw [if_neg (by decide : ¬ false = true), hbmin,
      if_pos (by omega : 1 < B)]
    rw [ih r (B / 2) off rest ?_ ?_]
    · congr 1
      rw [Nat.div_div_eq_div_mul]
      congr 1
      rw [pow_succ, Nat.mul_comm]
    · rw [Nat.le_div_iff_mul_le (by norm_num)]
      calc 2 ^ k * 2 = 2 ^ (k + 1) := by rw [pow_succ]
      _ ≤ B := h1
    · calc B / 2 ≤ B := Nat.div_le_self B 2
      _ ≤ r := h2

/-- C5: while blocksize exceeds 1, every failure of an awaited send
(whether of the block itself or of a SET_ADDRESS reissue) halves the
current blocksize in integer arithmetic and clears the address flag;
k+1 consecutive failures of a block started at size B leave the integer
B / 2^(k+1), at least 1; a failure at blocksize 1 propagates; and the
true-division halving chain of the source, evaluated on the rationals,
yields exactly the integer-division values on the power-of-two block
sizes the loop reaches. -/
theorem c5_backoff (page : Nat) (d : List Nat) :
    (∀ (r bs off : Nat) (rest : List Bool), 0 < r → 1 < min bs r →
      pageLoop page d r bs off true (false :: rest) =
        pageLoop page d r (min bs r / 2) off false rest) ∧
    (∀ (r bs off : Nat) (rest : List Bool), 0 < r → 1 < bs →
      pageLoop page d r bs off false (false :: rest) =
        pageLoop page d r (bs / 2) off false rest) ∧
    (∀ (r B off k : Nat) (rest : List Bool), B ≤ r → 2 ^ (k + 1) ≤ B →
      (pageLoop page d r B off true (false :: consecFail k rest) =
        pageLoop page d r (B / 2 ^ (k + 1)) off false rest) ∧
      1 ≤ B / 2 ^ (k + 1)) ∧
    (∀ (r off : Nat) (s : Bool) (rest : List Bool), 0 < r →
      pageLoop page d r 1 off s (false :: rest) = .raised) ∧
    (∀ (m k : Nat), k ≤ m →
      halveIterQ k ((2 : ℚ) ^ m) = ((2 ^ m / 2 ^ k : ℕ) : ℚ)) := by
  refine ⟨?_, ?_, ?_, ?_, ?_⟩
  · intro r bs off rest hr hmin
    rw [pageLoop_step_true page d r bs off false rest (by omega)]
    rw [if_neg (by decide : ¬ false = true), if_pos hmin]
  · intro r bs off rest hr hbs
    rw [pageLoop_addr_fail page d r bs off rest (by omega), if_pos hbs]
  · intro r B off k rest hBr hpow
    have h2pow : 2 ≤ 2 ^ (k + 1) := by
      calc 2 = 2 ^ 1 := by norm_num
      _ ≤ 2 ^ (k + 1) := Nat.pow_le_pow_right (by norm_num) (by omega)
    have hbmin : min B r = B := Nat.min_eq_left hBr
    constructor
    · rw [pageLoop_step_true page d r B off false _ (by omega)]
      rw [if_neg (by decide : ¬ false = true), hbmin,
        if_pos (by omega : 1 < B)]
      rw [pageLoop_failF page d k r (B / 2) off rest ?_ ?_]
      · congr 1
        rw [Nat.div_div_eq_div_mul]
        congr 1
        rw [pow_succ, Nat.mul_comm]
      · rw [Nat.le_div_iff_mul_le (by norm_num)]
        calc 2 ^ k * 2 = 2 ^ (k + 1) := by rw [pow_succ]
        _ ≤ B := hpow
      · calc B / 2 ≤ B := Nat.div_le_self B 2
        _ ≤ r := hBr
    · rw [Nat.one_le_div_iff (by omega)]
      exact hpow
  · intro r off s rest hr
    have hbmin : min 1 r = 1 := Nat.min_eq_left (by omega)
    cases s with
    | true =>
      rw [pageLoop_step_true page d r 1 off false rest (by omega)]
      rw [if_neg (by decide : ¬ false = true), hbmin,
        if_neg (by omega : ¬ 1 < 1)]
    | false =>
      rw [pageLoop_addr_fail page d r 1 off rest (by omega),
        if_neg (by omega : ¬ 1 < 1)]
  · intro m k hk
    rw [halveIterQ_eq_div]
    obtain ⟨j, rfl⟩ : ∃ j, m = k + j := ⟨m - k, by omega⟩
    have hnat : (2 : ℕ) ^ (k + j) / 2 ^ k = 2 ^ j := by
      rw [pow_add]
      exact Nat.mul_div_cancel_left _ (pow_pos (by norm_num) k)
    rw [hnat]
    push_cast
    rw [pow_add, mul_div_cancel_left₀]
    positivity

/-- C5 witness: two consecutive failures of a 64-unit block leave
blocksize 16 = 64 / 2^2 with the address flag cleared. -/
theorem c5_backoff_witness :
    (64 : Nat) ≤ 64 ∧ 2 ^ (1 + 1) ≤ 64 ∧
      (pageLoop 7 [] 64 64 0 true (false :: consecFail 1 []) =
        pageLoop 7 [] 64 (64 / 2 ^ (1 + 1)) 0 false [] ∧
      1 ≤ 64 / 2 ^ (1 + 1)) :=
  ⟨by decide, by decide,
    (c5_backoff 7 []).2.2.1 64 64 0 1 [] (by decide) (by decide)⟩

lemma dataBytes_append (xs ys : List PageFrame) :
    dataBytes (xs ++ ys) = dataBytes xs ++ dataBytes ys := by
  simp [dataBytes, List.filter_append, List.map_append, List.flatten_append]

lemma dataBytes_cons_setAddress (p : List Nat) (fs : List PageFrame) :
    dataBytes (.setAddress p :: fs) = dataBytes fs := by
  simp [dataBytes, List.filter_cons, isDataFrame]

/-- Consecutive 4-byte slices concatenate to one contiguous slice. -/
lemma join_slices (d : List Nat) : ∀ (B O : Nat),
    ((List.range B).map (fun i => sliceUnit d (O + i))).flatten =
      (d.drop (O * 4)).take (B * 4) := by
  intro B
  induction B with
  | zero => intro O; simp
  | succ B ih =>
    intro O
    rw [List.range_succ, List.map_append, List.flatten_append, ih O]
    simp only [List.map_cons, List.map_nil, List.flatten_cons, List.flatten_nil,
      List.append_nil]
    rw [show (B + 1) * 4 = B * 4 + 4 by ring, List.take_add]
    congr 1
    rw [sliceUnit, List.drop_drop]
    congr 2
    ring

/-- A streamed block consists only of DATA frames, exactly blocksize of
them, and their payloads are the corresponding contiguous byte slice. -/
lemma streamBlock_data (B O : Nat) (d : List Nat) (hB : 0 < B) :
    (streamBlock B O d).filter isDataFrame = streamBlock B O d ∧
    (streamBlock B O d).length = B ∧
    dataBytes (streamBlock B O d) = (d.drop (O * 4)).take (B * 4) := by
  rcases Nat.lt_or_ge B 2 with h2 | h2
  · have hb1 : B = 1 := by omega
    subst hb1
    refine ⟨by simp [streamBlock, isDataFrame], by simp [streamBlock], ?_⟩
    simp [streamBlock, dataBytes, isDataFrame, dataPayload, sliceUnit]
  · have hclosed := streamBlock_closed B O d (by omega)
    have hfil : (streamBlock B O d).filter isDataFrame = streamBlock B O d := by
      rw [hclosed, List.filter_eq_self]
      intro a ha
      rw [List.mem_map] at ha
      obtain ⟨i, _, rfl⟩ := ha
      rfl
    refine ⟨hfil, ?_, ?_⟩
    · rw [hclosed]
      simp
    · rw [dataBytes, hfil, hclosed, List.map_map]
      exact join_slices d B O

/-- The all-success run of the block loop: one ok trace whose DATA
frames number exactly `remaining` and whose payloads are the remaining
slice of the page, for any sufficiently long all-true oracle. -/
lemma pageLoop_allTrue (page : Nat) (d : List Nat) :
    ∀ (r bs off : Nat) (s : Bool) (k : Nat), 0 < bs → 2 * r + 1 ≤ k →
      ∃ fs, pageLoop page d r bs off s (List.replicate k true) = .ok fs ∧
        (fs.filter isDataFrame).length = r ∧
        dataBytes fs = (d.drop (off * 4)).take (r * 4) := by
  intro r
  induction r using Nat.strong_induction_on with
  | _ r ih =>
    intro bs off s k hbs hk
    rcases Nat.eq_zero_or_pos r with hr0 | hrpos
    · subst hr0
      exact ⟨[], pageLoop_zero page d bs off s _, by simp,
        by simp [dataBytes]⟩
    · obtain ⟨k1, rfl⟩ : ∃ k1, k = k1 + 1 := ⟨k - 1, by omega⟩
      have hb1 : 1 ≤ min bs r := Nat.le_min.mpr ⟨hbs, hrpos⟩
      have hble : min bs r ≤ r := Nat.min_le_right bs r
      cases s with
      | true =>
        rw [List.replicate_succ,
          pageLoop_step_true page d r bs off true _ (by omega), if_pos rfl]
        obtain ⟨fs, hok, hlen, hbytes⟩ :=
          ih (r - min bs r) (by omega) (min bs r) (off + min bs r) true k1
            (by omega) (by omega)
        refine ⟨streamBlock (min bs r) off d ++ fs, ?_, ?_, ?_⟩
        · rw [hok]
          rfl
        · obtain ⟨hf, hl, _⟩ := streamBlock_data (min bs r) off d (by omega)
          rw [List.filter_append, List.length_append, hf, hl, hlen]
          omega
        · obtain ⟨_, _, hby⟩ := streamBlock_data (min bs r) off d (by omega)
          rw [dataBytes_append, hby, hbytes]
          rw [show r * 4 = min bs r * 4 + (r - min bs r) * 4 by omega,
            List.take_add]
          congr 1
          rw [List.drop_drop]
          congr 2
          ring
      | false =>
        obtain ⟨k2, rfl⟩ : ∃ k2, k1 = k2 + 1 := ⟨k1 - 1, by omega⟩
        rw [List.replicate_succ, List.replicate_succ,
          pageLoop_addr_ok page d r bs off true _ (by omega), if_pos rfl]
        obtain ⟨fs, hok, hlen, hbytes⟩ :=
          ih (r - min bs r) (by omega) (min bs r) (off + min bs r) true k2
            (by omega) (by omega)
        refine ⟨.setAddress [page >>> 8, page &&& 0xff, 0, off] ::
          (streamBlock (min bs r) off d ++ fs), ?_, ?_, ?_⟩
        · rw [hok]
          rfl
        · obtain ⟨hf, hl, _⟩ := streamBlock_data (min bs r) off d (by omega)
          rw [List.filter_cons]
          simp only [isDataFrame]
          rw [if_neg (by decide : ¬ false = true)]
          rw [List.filter_append, List.length_append, hf, hl, hlen]
          omega
        · obtain ⟨_, _, hby⟩ := streamBlock_data (min bs r) off d (by omega)
          rw [dataBytes_cons_setAddress, dataBytes_append, hby, hbytes]
          rw [show r * 4 = min bs r * 4 + (r - min bs r) * 4 by omega,
            List.take_add]
          congr 1
          rw [List.drop_drop]
          congr 2
          ring

/-- C6: with data shorter than the page size and every block succeeding
first try, program_page emits exactly pagesize / 4 DATA frames whose
payload bytes are the supplied data extended with 0xff to exactly
pagesize bytes. -/
theorem c6_padding (pagesize page : Nat) (data : List Nat) (aSet : Bool)
    (k : Nat) (hlen : data.length < pagesize) (hdiv : pagesize % 4 = 0)
    (hk : 2 * (pagesize / 4) + 1 ≤ k) :
    ∃ fs, program_page pagesize page data aSet (List.replicate k true) = .ok fs ∧
      (fs.filter isDataFrame).length = pagesize / 4 ∧
      dataBytes fs = data ++ List.replicate (pagesize - data.length) 0xff := by
  obtain ⟨fs, hok, hcnt, hbytes⟩ := pageLoop_allTrue page
    (data ++ List.replicate (pagesize - data.length) 0xff)
    (pagesize / 4) 64 0 aSet k (by norm_num) hk
  refine ⟨fs, ?_, hcnt, ?_⟩
  · rw [program_page]
    simp only [if_pos hlen]
    exact hok
  · rw [hbytes]
    have hlen2 : (data ++ List.replicate (pagesize - data.length) 0xff).length
        = pagesize := by
      simp [List.length_append, List.length_replicate]
      omega
    have hmul : pagesize / 4 * 4 = pagesize := Nat.div_mul_cancel
      (Nat.dvd_of_mod_eq_zero hdiv)
    rw [Nat.zero_mul, List.drop_zero, hmul]
    exact List.take_of_length_le (le_of_eq hlen2)

/-- C6 witness: a 3-byte payload on an 8-byte page yields 2 DATA frames
carrying the data padded with five 0xff bytes. -/
theorem c6_padding_witness :
    ∃ fs, program_page 8 3 [1, 2, 3] false (List.replicate 5 true) = .ok fs ∧
      (fs.filter isDataFrame).length = 8 / 4 ∧
      dataBytes fs = [1, 2, 3] ++ List.replicate (8 - 3) 0xff :=
  c6_padding 8 3 [1, 2, 3] false 5 (by decide) (by decide) (by decide)

/-! ## Programming driver: Bootloader.program

identify() and start_app() exchange IDENTIFY / START_APPLICATION frames
only; the driver then computes the page count and either raises before
any page is written or runs the per-page loop.  The model captures the
size check and the sequence of program_page calls (page index, data
slice, addressAlreadySet); the source computes the page count as
int(math.ceil(float(totalsize) / float(pagesize))), which equals Nat
ceiling division for the positive page sizes of the data model. -/

def totalsize (segments : List (List Nat)) : Nat :=
  (segments.map List.length).sum

/-- pages = ceil(totalsize / pagesize). -/
def numPages (pagesize : Nat) (segments : List (List Nat)) : Nat :=
  (totalsize segments + pagesize - 1) / pagesize

/-- Result of the driver run, up to the per-page sends. -/
inductive ProgResult where
  /-- raise BootloaderException before any page write -/
  | imageTooLarge
  /-- the program_page calls, in order: page index, data slice, addressAlreadySet -/
  | calls (cs : List (Nat × List Nat × Bool))
  deriving Repr, DecidableEq

/-- The per-page loop of program: page i gets the slice
data[offset : offset + pagesize] of the current segment; offset advances
by pagesize and moves to the next segment once it passes the segment
end; addressSet is False only for the very first page. -/
def buildCalls (pagesize : Nat) (segments : List (List Nat)) :
    Nat → Nat → Nat → Nat → Bool → List (Nat × List Nat × Bool)
  | 0, _, _, _, _ => []
  | fuel + 1, i, segIdx, offset, aSet =>
    let data := segments.getD segIdx []
    let call := (i, (data.drop offset).take pagesize, aSet)
    if offset + pagesize ≥ data.length then
      call :: buildCalls pagesize segments fuel (i + 1) (segIdx + 1) 0 true
    else
      call :: buildCalls pagesize segments fuel (i + 1) segIdx (offset + pagesize) true

/-- Bootloader.program after a successful identify: check the image
size against the available pages, then walk the segments page by page. -/
def Bootloader.program (pagesize pages_avail : Nat)
    (segments : List (List Nat)) : ProgResult :=
  if numPages pagesize segments > pages_avail then .imageTooLarge
  else .calls (buildCalls pagesize segments (numPages pagesize segments) 0 0 0 false)

/-- C9: whenever the page count exceeds the available pages the driver
fails with ImageTooLarge, and no program_page call (hence no SET_ADDRESS
or DATA frame) is produced. -/
theorem c9_image_too_large (pagesize pages_avail : Nat)
    (segments : List (List Nat))
    (h : numPages pagesize segments > pages_avail) :
    Bootloader.program pagesize pages_avail segments = .imageTooLarge ∧
    ∀ cs, Bootloader.program pagesize pages_avail segments ≠ .calls cs := by
  refine ⟨by rw [Bootloader.program, if_pos h], ?_⟩
  intro cs
  rw [Bootloader.program, if_pos h]
  exact fun hx => ProgResult.noConfusion hx

set_option maxRecDepth 2000 in
/-- C9 witness: a 200-byte image on a board with 5 pages of 32 bytes:
ceil(200 / 32) = 7 > 5. -/
theorem c9_image_too_large_witness :
    numPages 32 [List.replicate 200 0xab] > 5 ∧
    Bootloader.program 32 5 [List.replicate 200 0xab] = .imageTooLarge :=
  ⟨by decide, (c9_image_too_large 32 5 [List.replicate 200 0xab] (by decide)).1⟩

end BootloaderCan
